import Mathlib

/-!
Verification of `widgy/db/fields.py` (django-widgy): a shallow embedding of
the `WidgyFieldObjectDescriptor` attribute descriptor and the `WidgyField` /
`VersionedWidgyField` model fields, together with proofs of the documented
properties of assignment-time and save-time behavior.

Modelling conventions:
* Machine rows (`Node`, `VersionTracker`) live in an explicit database state
  `DB` holding a fresh-primary-key counter and the persisted objects in
  insertion order.
* Python objects that can flow through the field are the inductive `PyValue`;
  the unsaved `ModelClass()` instance carrying the stashed `_ct` attribute is
  its `placeholder` constructor.
* Exceptions are modelled with `Except PyError`; `PyError`'s constructors are
  the Python builtins the code can surface (`TypeError` from `reduce` over an
  empty sequence, `AttributeError` from `getattr` on an app module).
* `dict.update`-style keyword defaulting is modelled with `Option` fields and
  `Option.getD`.
-/

namespace Widgy

/-- A framework `ContentType` row: identifies a concrete model class by app
label and lower-cased model name. -/
structure ContentType where
  app_label : String
  model : String
deriving DecidableEq, Repr

/-- A model class as `get_layout_contenttypes` sees it: `_meta.app_label`,
`_meta.object_name`, `_meta.module_name`, plus the method resolution order as
a list of `(app_label, object_name)` keys (the class's own key included),
which decides `issubclass`. -/
structure MClass where
  app_label : String
  object_name : String
  module_name : String
  mro : List (String × String)
deriving DecidableEq, Repr

/-- Python `issubclass(c, l)`: `l`'s key occurs in `c`'s method resolution
order. -/
def issubclassOf (c l : MClass) : Bool :=
  c.mro.contains (l.app_label, l.object_name)

/-- The widgy site collaborator, reduced to `get_all_content_classes()`. -/
structure Site where
  content_classes : List MClass
deriving DecidableEq, Repr

/-- The Python builtin exceptions that operations of this module can let
escape. No constructor is a custom exception type of the module. -/
inductive PyError where
  | typeError
  | attributeError
deriving DecidableEq, Repr

/-- A Python value that can flow through the widgy field descriptor or sit in
the database. `placeholder model ct` is an unsaved `ModelClass()` instance
whose `_ct` attribute stashes the content type `ct`; `nodeRow pk ct` is a
persisted Node created through `ct.model_class().add_root(site)`;
`trackerRow pk wc` is a persisted VersionTracker whose `working_copy` is the
node with primary key `wc`. -/
inductive PyValue where
  | none
  | contentType (ct : ContentType)
  | placeholder (model : String) (ct : ContentType)
  | nodeRow (pk : Nat) (ct : ContentType)
  | trackerRow (pk : Nat) (working_copy : Nat)
deriving DecidableEq, Repr

/-- `hasattr(value, '_ct')`: only the unsaved placeholder produced by the
descriptor carries the stashed content type. -/
def PyValue.hasCT : PyValue → Bool
  | .placeholder _ _ => true
  | _ => false

/-- The saved primary key the base descriptor mirrors into the attname
column: persisted rows have one, `None` and unsaved instances do not. -/
def PyValue.pkOf : PyValue → Option Nat
  | .nodeRow pk _ => some pk
  | .trackerRow pk _ => some pk
  | _ => Option.none

/-- The database: a fresh-primary-key counter and the persisted objects in
insertion order. -/
structure DB where
  nextPk : Nat
  rows : List PyValue
deriving DecidableEq, Repr

/-- `ct.model_class().add_root(site).node`: persist a fresh Node for the
content class identified by `ct` and return the new state and the node's
primary key. The site is passed through as in the source but does not affect
the produced row. -/
def add_root (_site : Site) (db : DB) (ct : ContentType) : DB × Nat :=
  (⟨db.nextPk + 1, db.rows ++ [.nodeRow db.nextPk ct]⟩, db.nextPk)

/-- `VersionTracker.objects.create(working_copy=node)`: persist a fresh
VersionTracker row wrapping the node with primary key `working_copy`. -/
def createVersionTracker (db : DB) (working_copy : Nat) : DB × Nat :=
  (⟨db.nextPk + 1, db.rows ++ [.trackerRow db.nextPk working_copy]⟩, db.nextPk)

/-- An entry of `root_choices`: either a string or a model class. -/
inductive Layout where
  | str (s : String)
  | cls (c : MClass)
deriving DecidableEq, Repr

/-- The app registry behind `get_app` / `getattr`: model classes keyed by
`(app_label, object_name)`. -/
abbrev AppRegistry := List ((String × String) × MClass)

/-- `getattr(get_app(app_label), model_name)`: a missing class surfaces as
the builtin `AttributeError`. -/
def appLookup (apps : AppRegistry) (key : String × String) :
    Except PyError MClass :=
  match apps.lookup key with
  | some c => .ok c
  | Option.none => .error .attributeError

/-- The `try/except` around `app_label, model_name = layout.split(".")` in
`normalize`: a class (whose `.split` raises `AttributeError`) contributes its
own `_meta` names; a string splitting into exactly two parts is
`app_label.ModelName`; any other string (no dot, or more than one) raises
`ValueError` on unpacking and is treated as a bare model name in the owning
model's app. -/
def splitLayout (selfAppLabel : String) (l : Layout) : String × String :=
  match l with
  | .cls c => (c.app_label, c.object_name)
  | .str s =>
    match s.splitOn "." with
    | [a, m] => (a, m)
    | _ => (selfAppLabel, s)

/-- `normalize(layout)`: resolve the split result through the app registry. -/
def normalize (selfAppLabel : String) (apps : AppRegistry) (l : Layout) :
    Except PyError MClass :=
  appLookup apps (splitLayout selfAppLabel l)

/-- The filter predicate denoted by a Q object (and by the queryset
`ContentType.objects.filter(qs)` built from one). -/
abbrev QPred := ContentType → Bool

/-- `Q(app_label=cls._meta.app_label, model=cls._meta.module_name)`. -/
def qOf (c : MClass) : QPred :=
  fun ct => ct.app_label == c.app_label && ct.model == c.module_name

/-- `reduce(or_, qs)`: left fold of `|` over the Q objects; on an empty
sequence the builtin raises `TypeError` (no initial value was given). -/
def reduceOr (qs : List QPred) : Except PyError QPred :=
  match qs with
  | [] => .error .typeError
  | q :: rest => .ok (rest.foldl (fun a b => fun ct => a ct || b ct) q)

/-- `on_delete` choices of the host ORM. -/
inductive OnDelete where
  | SET_NULL
  | CASCADE
  | PROTECT
  | DO_NOTHING
deriving DecidableEq, Repr

/-- The state `WidgyField.__init__` leaves on the field: the resolved `to`
target, the site, `root_choices`, and the three ForeignKey options the class
defaults. -/
structure WidgyField where
  relTo : String
  site : Site
  root_choices : List Layout
  blank : Bool
  null : Bool
  on_delete : OnDelete
deriving DecidableEq, Repr

/-- The keyword arguments of `__init__` that interact with the `defaults`
dict; an absent key leaves the default in force. -/
structure InitKwargs where
  blank : Option Bool
  null : Option Bool
  on_delete : Option OnDelete
deriving DecidableEq, Repr

/-- `WidgyField.__init__`: `to` defaults to `'widgy.Node'`; the dict
`{'blank': True, 'null': True, 'on_delete': models.SET_NULL}` is updated with
the caller's kwargs before being passed to `ForeignKey.__init__`. -/
def WidgyField.init (site : Site) (to' : Option String)
    (root_choices : List Layout) (kwargs : InitKwargs) : WidgyField :=
  { relTo := to'.getD "widgy.Node"
    site := site
    root_choices := root_choices
    blank := kwargs.blank.getD true
    null := kwargs.null.getD true
    on_delete := kwargs.on_delete.getD .SET_NULL }

/-- `VersionedWidgyField.__init__`: `to` defaults to
`'widgy.VersionTracker'`, then `WidgyField.__init__` runs (its own `to`
default is shadowed since the value passed up is never `None`). -/
def VersionedWidgyField.init (site : Site) (to' : Option String)
    (root_choices : List Layout) (kwargs : InitKwargs) : WidgyField :=
  WidgyField.init site (some (to'.getD "widgy.VersionTracker")) root_choices kwargs

/-- The owning model instance, restricted to the two attributes the field
touches: the descriptor-backed attribute (`self.name`) and the raw foreign
key column (`self.attname`). -/
structure Instance where
  fieldVal : PyValue
  attnameVal : Option Nat
deriving DecidableEq, Repr

/-- `ReverseSingleRelatedObjectDescriptor.__set__` (the framework base
class): store the value on the instance and mirror its saved primary key (or
`None`) into the attname column. -/
def baseDescriptorSet (inst : Instance) (value : PyValue) : Instance :=
  { inst with fieldVal := value, attnameVal := value.pkOf }

/-- `WidgyFieldObjectDescriptor.__set__`: a `ContentType` is replaced by a
fresh unsaved `ModelClass()` instance (`ModelClass = self.field.rel.to`)
whose `_ct` attribute keeps the original content type; every other value goes
to the base descriptor unchanged. The database state is threaded through
untouched: assignment performs no save. -/
def WidgyFieldObjectDescriptor.set (f : WidgyField) (db : DB)
    (inst : Instance) (value : PyValue) : DB × Instance :=
  match value with
  | .contentType ct => (db, baseDescriptorSet inst (.placeholder f.relTo ct))
  | v => (db, baseDescriptorSet inst v)

/-- `models.ForeignKey.pre_save` (through `Field.pre_save`): return
`getattr(model_instance, self.attname)` and change nothing. -/
def foreignKeyPreSave (db : DB) (inst : Instance) :
    DB × Instance × Option Nat :=
  (db, inst, inst.attnameVal)

/-- `WidgyField.pre_save`: when the stored value carries `_ct`, build the
real Node through the stashed content type's model class, store it on the
instance under `self.name` and its primary key under `self.attname`, and
return that primary key; otherwise defer to `ForeignKey.pre_save`. -/
def WidgyField.pre_save (f : WidgyField) (db : DB) (inst : Instance) :
    DB × Instance × Option Nat :=
  match inst.fieldVal with
  | .placeholder _ ct =>
    let r := add_root f.site db ct
    (r.1, { fieldVal := .nodeRow r.2 ct, attnameVal := some r.2 }, some r.2)
  | _ => foreignKeyPreSave db inst

/-- `VersionedWidgyField.pre_save`: with `_ct` present, build the Node, wrap
it in a freshly created `VersionTracker` as its working copy, store the
tracker and its primary key on the instance, and return the tracker's
primary key; otherwise the `super(WidgyField, self)` call defers straight to
`ForeignKey.pre_save`, skipping `WidgyField.pre_save`. -/
def VersionedWidgyField.pre_save (f : WidgyField) (db : DB)
    (inst : Instance) : DB × Instance × Option Nat :=
  match inst.fieldVal with
  | .placeholder _ ct =>
    let r := add_root f.site db ct
    let t := createVersionTracker r.1 r.2
    (t.1, { fieldVal := .trackerRow t.2 r.2, attnameVal := some t.2 }, some t.2)
  | _ => foreignKeyPreSave db inst

/-- `WidgyField.get_layout_contenttypes`: normalize every entry of `layouts`,
keep the site's content classes that are subclasses of any normalized class,
and filter `ContentType.objects` by the `|`-reduction of one Q object per
kept class. `selfAppLabel` stands for `self.model._meta.app_label`. -/
def WidgyField.get_layout_contenttypes (f : WidgyField) (apps : AppRegistry)
    (selfAppLabel : String) (layouts : List Layout) : Except PyError QPred := do
  let normalized ← layouts.mapM (normalize selfAppLabel apps)
  let classes := f.site.content_classes.filter
    (fun c => normalized.any (fun l => issubclassOf c l))
  reduceOr (classes.map qOf)

/-- Keyword arguments a caller may pass to `formfield`; an absent key leaves
the computed default in force. -/
structure FormFieldKwargs where
  form_class : Option String
  queryset : Option QPred
  site : Option Site

/-- The arguments `formfield` hands to `ForeignKey.formfield`. -/
structure FormFieldArgs where
  form_class : String
  queryset : QPred
  site : Site

/-- `WidgyField.formfield`: build the defaults dict — which evaluates
`self.get_layout_contenttypes(self.root_choices)` eagerly, so its exceptions
escape even when the caller overrides `queryset` — then update it with the
caller's kwargs. -/
def WidgyField.formfield (f : WidgyField) (apps : AppRegistry)
    (selfAppLabel : String) (kwargs : FormFieldKwargs) :
    Except PyError FormFieldArgs := do
  let qs ← f.get_layout_contenttypes apps selfAppLabel f.root_choices
  Except.ok
    { form_class := kwargs.form_class.getD "WidgyFormField"
      queryset := kwargs.queryset.getD qs
      site := kwargs.site.getD f.site }

/-! Concrete fixtures used by the witness theorems. -/

/-- A concrete content class registered in app `app`. -/
def wFoo : MClass := ⟨"app", "Foo", "foo", [("app", "Foo")]⟩

/-- A site exposing `wFoo` as its only content class. -/
def wSite : Site := ⟨[wFoo]⟩

/-- An app registry resolving `("app", "Foo")` to `wFoo`. -/
def wApps : AppRegistry := [(("app", "Foo"), wFoo)]

/-- Empty `__init__` kwargs: every default stays in force. -/
def wInitKwargs : InitKwargs := ⟨Option.none, Option.none, Option.none⟩

/-- `__init__` kwargs overriding all three defaulted keys. -/
def wOverrideKwargs : InitKwargs := ⟨some false, some false, some OnDelete.CASCADE⟩

/-- Empty `formfield` kwargs. -/
def wFormKwargs : FormFieldKwargs := ⟨Option.none, Option.none, Option.none⟩

/-- A field on `wSite` whose `root_choices` is the single class `wFoo`. -/
def wField : WidgyField := WidgyField.init wSite Option.none [.cls wFoo] wInitKwargs

/-- A field whose `root_choices` is empty. -/
def wEmptyField : WidgyField := WidgyField.init wSite Option.none [] wInitKwargs

/-- The content type row for `wFoo`. -/
def wCT : ContentType := ⟨"app", "foo"⟩

/-- An empty database. -/
def wDB : DB := ⟨0, []⟩

/-- An instance holding a placeholder with stashed `_ct`. -/
def wInstPlaceholder : Instance := ⟨.placeholder "widgy.Node" wCT, Option.none⟩

/-- An instance holding `None`. -/
def wInstNone : Instance := ⟨.none, Option.none⟩

/-- The formfield arguments produced for `wField` with empty kwargs. -/
def wArgs : FormFieldArgs := ⟨"WidgyFormField", qOf wFoo, wSite⟩

/-! Helper lemmas shared by the claim theorems. -/

/-- Without a stashed `_ct`, both `pre_save` overrides defer to
`ForeignKey.pre_save`. -/
theorem preSave_no_ct (f : WidgyField) (db : DB) (inst : Instance)
    (h : inst.fieldVal.hasCT = false) :
    WidgyField.pre_save f db inst = (db, inst, inst.attnameVal) ∧
    VersionedWidgyField.pre_save f db inst = (db, inst, inst.attnameVal) := by
  cases hv : inst.fieldVal <;>
    simp_all [WidgyField.pre_save, VersionedWidgyField.pre_save,
      foreignKeyPreSave, PyValue.hasCT]

/-- Value of `WidgyField.pre_save` on a stashed content type. -/
theorem widgyPreSave_placeholder (f : WidgyField) (db : DB) (inst : Instance)
    (m : String) (ct : ContentType)
    (h : inst.fieldVal = PyValue.placeholder m ct) :
    WidgyField.pre_save f db inst =
      (⟨db.nextPk + 1, db.rows ++ [PyValue.nodeRow db.nextPk ct]⟩,
       ⟨PyValue.nodeRow db.nextPk ct, some db.nextPk⟩, some db.nextPk) := by
  simp [WidgyField.pre_save, h, add_root]

/-- Value of `VersionedWidgyField.pre_save` on a stashed content type. -/
theorem versionedPreSave_placeholder (f : WidgyField) (db : DB)
    (inst : Instance) (m : String) (ct : ContentType)
    (h : inst.fieldVal = PyValue.placeholder m ct) :
    VersionedWidgyField.pre_save f db inst =
      (⟨db.nextPk + 2,
        db.rows ++ [PyValue.nodeRow db.nextPk ct,
                    PyValue.trackerRow (db.nextPk + 1) db.nextPk]⟩,
       ⟨PyValue.trackerRow (db.nextPk + 1) db.nextPk, some (db.nextPk + 1)⟩,
       some (db.nextPk + 1)) := by
  simp [VersionedWidgyField.pre_save, h, add_root, createVersionTracker]

/-! Claim theorems. -/

/-- C1: assigning a value through the widgy descriptor never touches the
database — no Node row is created at assignment time; when the stored value
carries a stashed content type, `WidgyField.pre_save` creates exactly one
new row, a Node built through that content type's model class, stores it on
the field name and its primary key on the attname, and returns that primary
key. -/
theorem C1_node_creation_deferred_to_pre_save
    (f : WidgyField) (db : DB) (inst : Instance) (m : String)
    (ct : ContentType) (h : inst.fieldVal = PyValue.placeholder m ct) :
    (∀ v, (WidgyFieldObjectDescriptor.set f db inst v).1 = db) ∧
    (WidgyField.pre_save f db inst).1.rows
      = db.rows ++ [PyValue.nodeRow db.nextPk ct] ∧
    (WidgyField.pre_save f db inst).2.1.fieldVal
      = PyValue.nodeRow db.nextPk ct ∧
    (WidgyField.pre_save f db inst).2.1.attnameVal = some db.nextPk ∧
    (WidgyField.pre_save f db inst).2.2 = some db.nextPk := by
  rw [widgyPreSave_placeholder f db inst m ct h]
  exact ⟨fun v => by cases v <;> rfl, rfl, rfl, rfl, rfl⟩

/-- C1 witness at concrete inputs. -/
theorem C1_witness :
    (∀ v, (WidgyFieldObjectDescriptor.set wField wDB wInstPlaceholder v).1 = wDB) ∧
    (WidgyField.pre_save wField wDB wInstPlaceholder).1.rows
      = wDB.rows ++ [PyValue.nodeRow wDB.nextPk wCT] ∧
    (WidgyField.pre_save wField wDB wInstPlaceholder).2.1.fieldVal
      = PyValue.nodeRow wDB.nextPk wCT ∧
    (WidgyField.pre_save wField wDB wInstPlaceholder).2.1.attnameVal
      = some wDB.nextPk ∧
    (WidgyField.pre_save wField wDB wInstPlaceholder).2.2 = some wDB.nextPk :=
  C1_node_creation_deferred_to_pre_save wField wDB wInstPlaceholder
    "widgy.Node" wCT rfl

/-- C2: the descriptor's `__set__` replaces a `ContentType` by a fresh
unsaved instance of the field's related model carrying the original content
type in `_ct` (the placeholder has no saved primary key) and stores it
through the base descriptor; any non-ContentType value is passed to the base
descriptor unchanged. -/
theorem C2_descriptor_wraps_contenttype
    (f : WidgyField) (db : DB) (inst : Instance) (ct : ContentType)
    (v : PyValue) (hv : ∀ c, v ≠ PyValue.contentType c) :
    WidgyFieldObjectDescriptor.set f db inst (PyValue.contentType ct)
      = (db, baseDescriptorSet inst (PyValue.placeholder f.relTo ct)) ∧
    (PyValue.placeholder f.relTo ct).pkOf = Option.none ∧
    WidgyFieldObjectDescriptor.set f db inst v
      = (db, baseDescriptorSet inst v) := by
  refine ⟨rfl, rfl, ?_⟩
  cases v with
  | contentType c => exact absurd rfl (hv c)
  | none => rfl
  | placeholder m c => rfl
  | nodeRow pk c => rfl
  | trackerRow pk wc => rfl

/-- C2 witness at concrete inputs. -/
theorem C2_witness :
    WidgyFieldObjectDescriptor.set wField wDB wInstNone (PyValue.contentType wCT)
      = (wDB, baseDescriptorSet wInstNone (PyValue.placeholder wField.relTo wCT)) ∧
    (PyValue.placeholder wField.relTo wCT).pkOf = Option.none ∧
    WidgyFieldObjectDescriptor.set wField wDB wInstNone PyValue.none
      = (wDB, baseDescriptorSet wInstNone PyValue.none) :=
  C2_descriptor_wraps_contenttype wField wDB wInstNone wCT PyValue.none
    (by intro c h; simp at h)

/-- C3: the placeholder carrying `_ct` is never persisted: after either
`pre_save` the stored field value no longer carries `_ct`, and every row of
the resulting database either pre-existed or is the freshly constructed Node
(or the VersionTracker wrapping it) obtained through the stashed content
type's model class. -/
theorem C3_placeholder_never_persisted
    (f : WidgyField) (db : DB) (inst : Instance) :
    (WidgyField.pre_save f db inst).2.1.fieldVal.hasCT = false ∧
    (VersionedWidgyField.pre_save f db inst).2.1.fieldVal.hasCT = false ∧
    (∀ r, r ∈ (WidgyField.pre_save f db inst).1.rows →
      r ∈ db.rows ∨ ∃ m ct, inst.fieldVal = PyValue.placeholder m ct ∧
        r = PyValue.nodeRow db.nextPk ct) ∧
    (∀ r, r ∈ (VersionedWidgyField.pre_save f db inst).1.rows →
      r ∈ db.rows ∨ ∃ m ct, inst.fieldVal = PyValue.placeholder m ct ∧
        (r = PyValue.nodeRow db.nextPk ct ∨
         r = PyValue.trackerRow (db.nextPk + 1) db.nextPk)) := by
  by_cases hct : inst.fieldVal.hasCT = true
  · obtain ⟨m, ct, h⟩ : ∃ m ct, inst.fieldVal = PyValue.placeholder m ct := by
      cases hv : inst.fieldVal <;> simp_all [PyValue.hasCT]
    rw [widgyPreSave_placeholder f db inst m ct h,
        versionedPreSave_placeholder f db inst m ct h]
    refine ⟨rfl, rfl, ?_, ?_⟩
    · intro r hr
      simp only [List.mem_append, List.mem_singleton] at hr
      rcases hr with hr | hr
      · exact Or.inl hr
      · exact Or.inr ⟨m, ct, h, hr⟩
    · intro r hr
      simp only [List.mem_append, List.mem_cons, List.mem_singleton,
        List.not_mem_nil, or_false] at hr
      rcases hr with hr | hr | hr
      · exact Or.inl hr
      · exact Or.inr ⟨m, ct, h, Or.inl hr⟩
      · exact Or.inr ⟨m, ct, h, Or.inr hr⟩
  · have hct' : inst.fieldVal.hasCT = false := by simpa using hct
    obtain ⟨hw, hv⟩ := preSave_no_ct f db inst hct'
    rw [hw, hv]
    exact ⟨hct', hct', fun r hr => Or.inl hr, fun r hr => Or.inl hr⟩

/-- C3 witness: the only new row after `WidgyField.pre_save` on a stashed
content type is the freshly built Node. -/
theorem C3_witness :
    PyValue.nodeRow wDB.nextPk wCT ∈ wDB.rows ∨
    ∃ m ct, wInstPlaceholder.fieldVal = PyValue.placeholder m ct ∧
      PyValue.nodeRow wDB.nextPk wCT = PyValue.nodeRow wDB.nextPk ct :=
  (C3_placeholder_never_persisted wField wDB wInstPlaceholder).2.2.1
    (PyValue.nodeRow wDB.nextPk wCT) (by decide)

/-- C4: on a stashed content type, `VersionedWidgyField.pre_save` first
creates the Node through the content type's `add_root` factory, then creates
a VersionTracker whose working copy is that Node, stores the tracker on the
field and its primary key on the attname, and returns the tracker's primary
key. -/
theorem C4_versioned_pre_save_creates_tracker
    (f : WidgyField) (db : DB) (inst : Instance) (m : String)
    (ct : ContentType) (h : inst.fieldVal = PyValue.placeholder m ct) :
    (VersionedWidgyField.pre_save f db inst).1.rows
      = db.rows ++ [PyValue.nodeRow db.nextPk ct,
                    PyValue.trackerRow (db.nextPk + 1) db.nextPk] ∧
    (VersionedWidgyField.pre_save f db inst).2.1.fieldVal
      = PyValue.trackerRow (db.nextPk + 1) db.nextPk ∧
    (VersionedWidgyField.pre_save f db inst).2.1.attnameVal
      = some (db.nextPk + 1) ∧
    (VersionedWidgyField.pre_save f db inst).2.2 = some (db.nextPk + 1) := by
  rw [versionedPreSave_placeholder f db inst m ct h]
  exact ⟨rfl, rfl, rfl, rfl⟩

/-- C4 witness at concrete inputs. -/
theorem C4_witness :
    (VersionedWidgyField.pre_save wField wDB wInstPlaceholder).1.rows
      = wDB.rows ++ [PyValue.nodeRow wDB.nextPk wCT,
                     PyValue.trackerRow (wDB.nextPk + 1) wDB.nextPk] ∧
    (VersionedWidgyField.pre_save wField wDB wInstPlaceholder).2.1.fieldVal
      = PyValue.trackerRow (wDB.nextPk + 1) wDB.nextPk ∧
    (VersionedWidgyField.pre_save wField wDB wInstPlaceholder).2.1.attnameVal
      = some (wDB.nextPk + 1) ∧
    (VersionedWidgyField.pre_save wField wDB wInstPlaceholder).2.2
      = some (wDB.nextPk + 1) :=
  C4_versioned_pre_save_creates_tracker wField wDB wInstPlaceholder
    "widgy.Node" wCT rfl

/-- Evaluating the left `|`-fold of Q predicates: true exactly when the seed
or some folded predicate accepts the content type. -/
theorem foldl_orQ_spec (q : QPred) (qs : List QPred) (ct : ContentType) :
    (qs.foldl (fun a b => fun x => a x || b x) q) ct
      = (q ct || qs.any (fun p => p ct)) := by
  induction qs generalizing q with
  | nil => simp
  | cons p rest ih => simp [List.foldl_cons, ih, Bool.or_assoc]

/-- A Q object accepts a content type exactly when app label and module name
match. -/
theorem qOf_eq_true_iff (c : MClass) (ct : ContentType) :
    qOf c ct = true ↔
      ct.app_label = c.app_label ∧ ct.model = c.module_name := by
  simp [qOf]

/-- Semantics of a successful `get_layout_contenttypes`: the returned
queryset accepts a content type exactly when some content class of the site
is a subclass of a normalized root choice and has matching app label and
module name. -/
theorem get_layout_contenttypes_ok_iff (f : WidgyField) (apps : AppRegistry)
    (selfAppLabel : String) (layouts : List Layout) (ns : List MClass)
    (q : QPred)
    (hn : layouts.mapM (normalize selfAppLabel apps) = Except.ok ns)
    (hq : f.get_layout_contenttypes apps selfAppLabel layouts = Except.ok q) :
    ∀ ct, q ct = true ↔ ∃ c, c ∈ f.site.content_classes ∧
      ns.any (fun l => issubclassOf c l) = true ∧
      ct.app_label = c.app_label ∧ ct.model = c.module_name := by
  intro ct
  have hred : reduceOr ((f.site.content_classes.filter
      (fun c => ns.any (fun l => issubclassOf c l))).map qOf)
      = Except.ok q := by
    unfold WidgyField.get_layout_contenttypes at hq
    rw [hn] at hq
    simpa [bind, Except.bind] using hq
  cases hcs : (f.site.content_classes.filter
      (fun c => ns.any (fun l => issubclassOf c l))).map qOf with
  | nil =>
    rw [hcs] at hred
    exact absurd hred (by simp [reduceOr])
  | cons p rest =>
    rw [hcs] at hred
    have hqP : q = rest.foldl (fun a b => fun x => a x || b x) p := by
      simpa [reduceOr] using hred.symm
    subst hqP
    rw [foldl_orQ_spec]
    have hany : (p ct || rest.any (fun g => g ct))
        = ((f.site.content_classes.filter
            (fun c => ns.any (fun l => issubclassOf c l))).map qOf).any
              (fun g => g ct) := by
      rw [hcs]; simp
    rw [hany]
    simp only [List.any_eq_true, List.mem_map, List.mem_filter]
    constructor
    · rintro ⟨g, ⟨c, ⟨hc, hsub⟩, rfl⟩, hg⟩
      obtain ⟨ha, hm⟩ := (qOf_eq_true_iff c ct).mp hg
      exact ⟨c, hc, hsub, ha, hm⟩
    · rintro ⟨c, hc, hsub, ha, hm⟩
      exact ⟨qOf c, ⟨c, ⟨hc, hsub⟩, rfl⟩, (qOf_eq_true_iff c ct).mpr ⟨ha, hm⟩⟩

/-- C5: a successful `get_layout_contenttypes(root_choices)` selects exactly
the site's content classes that are subclasses of the normalized root
choices, and `formfield` uses that queryset as its content-type filter
whenever the caller does not override `queryset`. -/
theorem C5_layout_contenttypes_filter
    (f : WidgyField) (apps : AppRegistry) (selfAppLabel : String)
    (ns : List MClass) (q : QPred) (kwargs : FormFieldKwargs)
    (args : FormFieldArgs)
    (hn : f.root_choices.mapM (normalize selfAppLabel apps) = Except.ok ns)
    (hq : f.get_layout_contenttypes apps selfAppLabel f.root_choices
      = Except.ok q) :
    (∀ ct, q ct = true ↔ ∃ c, c ∈ f.site.content_classes ∧
      ns.any (fun l => issubclassOf c l) = true ∧
      ct.app_label = c.app_label ∧ ct.model = c.module_name) ∧
    (kwargs.queryset = Option.none →
      f.formfield apps selfAppLabel kwargs = Except.ok args →
      args.queryset = q) := by
  refine ⟨get_layout_contenttypes_ok_iff f apps selfAppLabel
    f.root_choices ns q hn hq, ?_⟩
  intro hnone hform
  unfold WidgyField.formfield at hform
  rw [hq] at hform
  simp only [bind, Except.bind, hnone, Option.getD, Except.ok.injEq] at hform
  rw [← hform]

/-- C5 witness at concrete inputs: the single class `wFoo` is selected. -/
theorem C5_witness :
    (∀ ct, qOf wFoo ct = true ↔ ∃ c, c ∈ wField.site.content_classes ∧
      ([wFoo].any (fun l => issubclassOf c l)) = true ∧
      ct.app_label = c.app_label ∧ ct.model = c.module_name) ∧
    (wFormKwargs.queryset = Option.none →
      wField.formfield wApps "app" wFormKwargs = Except.ok wArgs →
      wArgs.queryset = qOf wFoo) :=
  C5_layout_contenttypes_filter wField wApps "app" [wFoo] (qOf wFoo)
    wFormKwargs wArgs rfl rfl

/-- C6: with `to=None`, a `WidgyField` targets `widgy.Node` and a
`VersionedWidgyField` targets `widgy.VersionTracker`; an explicit `to`
overrides both defaults. -/
theorem C6_default_to_targets
    (site : Site) (rc : List Layout) (k : InitKwargs) (t : String) :
    (WidgyField.init site Option.none rc k).relTo = "widgy.Node" ∧
    (VersionedWidgyField.init site Option.none rc k).relTo
      = "widgy.VersionTracker" ∧
    (WidgyField.init site (some t) rc k).relTo = t ∧
    (VersionedWidgyField.init site (some t) rc k).relTo = t :=
  ⟨rfl, rfl, rfl, rfl⟩

/-- C7: every exception the module can let escape from
`get_layout_contenttypes` or `formfield` is a Python builtin (`TypeError`
from `reduce` over an empty sequence, `AttributeError` from `getattr`);
the module raises nothing of its own making and defines no exception type,
and the descriptor and `pre_save` operations are total. -/
theorem C7_only_builtin_errors
    (f : WidgyField) (apps : AppRegistry) (selfAppLabel : String)
    (layouts : List Layout) (kwargs : FormFieldKwargs) (e : PyError)
    (h : f.get_layout_contenttypes apps selfAppLabel layouts
        = Except.error e ∨
      f.formfield apps selfAppLabel kwargs = Except.error e) :
    e = PyError.typeError ∨ e = PyError.attributeError := by
  cases e
  · exact Or.inl rfl
  · exact Or.inr rfl

/-- C7 witness: the empty-reduce `TypeError` is such a builtin. -/
theorem C7_witness :
    PyError.typeError = PyError.typeError ∨
    PyError.typeError = PyError.attributeError :=
  C7_only_builtin_errors wEmptyField wApps "app" [] wFormKwargs
    PyError.typeError (Or.inl rfl)

/-- C8: without a stashed `_ct` (for example `None` or a persisted row),
both `pre_save` overrides defer to the base `ForeignKey.pre_save`: the
database, the field value and the attname are unchanged and the attname
value is returned. -/
theorem C8_no_ct_delegates_to_base
    (f : WidgyField) (db : DB) (inst : Instance)
    (h : inst.fieldVal.hasCT = false) :
    WidgyField.pre_save f db inst = (db, inst, inst.attnameVal) ∧
    VersionedWidgyField.pre_save f db inst = (db, inst, inst.attnameVal) :=
  preSave_no_ct f db inst h

/-- C8 witness at a `None`-valued instance. -/
theorem C8_witness :
    WidgyField.pre_save wField wDB wInstNone
      = (wDB, wInstNone, wInstNone.attnameVal) ∧
    VersionedWidgyField.pre_save wField wDB wInstNone
      = (wDB, wInstNone, wInstNone.attnameVal) :=
  C8_no_ct_delegates_to_base wField wDB wInstNone rfl

/-- C9: unless overridden in kwargs, both field constructors produce
`blank=True`, `null=True` and `on_delete=SET_NULL`; a caller-supplied value
takes precedence over each default. -/
theorem C9_init_option_defaults
    (site : Site) (to' : Option String) (rc : List Layout) (k : InitKwargs) :
    (k.blank = Option.none →
      (WidgyField.init site to' rc k).blank = true ∧
      (VersionedWidgyField.init site to' rc k).blank = true) ∧
    (k.null = Option.none →
      (WidgyField.init site to' rc k).null = true ∧
      (VersionedWidgyField.init site to' rc k).null = true) ∧
    (k.on_delete = Option.none →
      (WidgyField.init site to' rc k).on_delete = OnDelete.SET_NULL ∧
      (VersionedWidgyField.init site to' rc k).on_delete
        = OnDelete.SET_NULL) ∧
    (∀ b, k.blank = some b →
      (WidgyField.init site to' rc k).blank = b ∧
      (VersionedWidgyField.init site to' rc k).blank = b) ∧
    (∀ b, k.null = some b →
      (WidgyField.init site to' rc k).null = b ∧
      (VersionedWidgyField.init site to' rc k).null = b) ∧
    (∀ d, k.on_delete = some d →
      (WidgyField.init site to' rc k).on_delete = d ∧
      (VersionedWidgyField.init site to' rc k).on_delete = d) := by
  refine ⟨?_, ?_, ?_, ?_, ?_, ?_⟩ <;> intros <;>
    simp_all [WidgyField.init, VersionedWidgyField.init]

/-- C9 witness: defaults apply with empty kwargs, overrides win with full
kwargs. -/
theorem C9_witness :
    ((WidgyField.init wSite Option.none [] wInitKwargs).blank = true ∧
     (VersionedWidgyField.init wSite Option.none [] wInitKwargs).blank
       = true) ∧
    ((WidgyField.init wSite Option.none [] wOverrideKwargs).blank = false ∧
     (VersionedWidgyField.init wSite Option.none [] wOverrideKwargs).blank
       = false) :=
  ⟨(C9_init_option_defaults wSite Option.none [] wInitKwargs).1 rfl,
   (C9_init_option_defaults wSite Option.none [] wOverrideKwargs).2.2.2.1
     false rfl⟩

/-- C10: when no content class of the site is a subclass of the normalized
root choices, `get_layout_contenttypes` does not return an empty queryset
but fails: `reduce(or_, ...)` over the empty sequence of Q objects has no
initial value and raises the builtin `TypeError`. -/
theorem C10_empty_classes_raises_typeerror
    (f : WidgyField) (apps : AppRegistry) (selfAppLabel : String)
    (layouts : List Layout) (ns : List MClass)
    (hn : layouts.mapM (normalize selfAppLabel apps) = Except.ok ns)
    (hempty : f.site.content_classes.filter
        (fun c => ns.any (fun l => issubclassOf c l)) = []) :
    f.get_layout_contenttypes apps selfAppLabel layouts
      = Except.error PyError.typeError := by
  unfold WidgyField.get_layout_contenttypes
  rw [hn]
  simp [bind, Except.bind, hempty, reduceOr]

/-- C10 witness: an empty `root_choices` selects no class and raises. -/
theorem C10_witness :
    wEmptyField.get_layout_contenttypes wApps "app" []
      = Except.error PyError.typeError :=
  C10_empty_classes_raises_typeerror wEmptyField wApps "app" [] [] rfl rfl

end Widgy
